import Mathlib

/-!
Verification of the StudyGPT session/response reconciliation logic.

The definitions below are a shallow embedding of the relevant TypeScript
source: the response reconciler and session updaters of App.tsx
(processResponse, handleSendMessage, handleDeleteSession, handleDeleteMessage,
updateActiveSession, handleFileUpload), the streaming accumulation and source
deduplication of geminiService.getChatResponse, the persistence layer of
sessionService.ts (saveSessions, loadSessions, migrateData), and the voice
command dispatch of useVoiceCommands.processTranscript.

JavaScript strings are modelled as Lean strings (operated on through their
character lists); the built-ins JSON.parse, String.prototype.match with the
fenced-block regex, replace, trim and toLowerCase are modelled by executable
Lean functions over characters, faithful to their semantics on the inputs the
claims range over (the whitespace class is the ASCII one, which is all the
source ever feeds them).
-/

set_option maxRecDepth 4096

namespace StudyGPT

/-- JSON values as produced by JSON.parse. Numbers are rationals: every
numeric literal JSON.parse accepts denotes a rational, and no claim depends
on floating-point rounding. -/
inductive Json where
  | null : Json
  | bool (b : Bool) : Json
  | num (q : ℚ) : Json
  | str (s : String) : Json
  | arr (items : List Json) : Json
  | obj (fields : List (String × Json)) : Json

/-- Property read on a parsed JSON object. JSON.parse assigns duplicate keys
in order, so a later duplicate overwrites an earlier one: lookup returns the
last binding. On non-objects (JavaScript property access on such values) the
fields of interest are absent. -/
def lookupLast (k : String) : List (String × Json) → Option Json
  | [] => none
  | (k', v) :: rest =>
    match lookupLast k rest with
    | some r => some r
    | none => if k' = k then some v else none

def Json.getField (j : Json) (k : String) : Option Json :=
  match j with
  | .obj fields => lookupLast k fields
  | _ => none

/- ### Character-level string utilities (models of the JS built-ins) -/

/-- The whitespace class used by the source's regexes, String.prototype.trim
and JSON: space, tab, carriage return, line feed (the ASCII core; the inputs
of every claim stay within it). -/
def isWs (c : Char) : Bool :=
  c = ' ' || c = '\t' || c = '\r' || c = '\n'

def skipWsL (l : List Char) : List Char := l.dropWhile isWs

/-- String.prototype.trim. -/
def trimChars (l : List Char) : List Char :=
  ((l.dropWhile isWs).reverse.dropWhile isWs).reverse

/-- String.prototype.toLowerCase (ASCII scope). -/
def lowerChars (l : List Char) : List Char := l.map Char.toLower

/-- First occurrence of the pattern inside a string: the text before the
occurrence and the text after it. none when the pattern does not occur. -/
def splitAtSub (pat : List Char) : List Char → Option (List Char × List Char)
  | [] => if pat = [] then some ([], []) else none
  | c :: rest =>
    if pat.isPrefixOf (c :: rest) then some ([], (c :: rest).drop pat.length)
    else
      match splitAtSub pat rest with
      | some (pre, post) => some (c :: pre, post)
      | none => none

/-- String.prototype.replace with a plain string pattern and empty
replacement: removes the first occurrence, identity when absent. -/
def replaceFirst (l pat : List Char) : List Char :=
  match splitAtSub pat l with
  | some (pre, post) => pre ++ post
  | none => l

/- ### The fenced-block regex -/

def openFence : List Char := "```json".data
def closeFence : List Char := "```".data

/-- fullText.match of the regex matching a backtick-json fence: first
occurrence, non-greedy body. The regex matches exactly when some occurrence
of the opening fence is followed by a later triple backtick; the match spans
from the first opening fence to the first closing backticks after it, and the
capture group is the text in between with surrounding whitespace absorbed by
the greedy and lazy whitespace parts of the pattern. Returns (whole match,
capture group 1). -/
def jsonBlockMatch (l : List Char) : Option (List Char × List Char) :=
  match splitAtSub openFence l with
  | none => none
  | some (_, after) =>
    match splitAtSub closeFence after with
    | none => none
    | some (mid, _) => some (openFence ++ mid ++ closeFence, trimChars mid)

/- ### JSON.parse -/

def hexDigitVal (c : Char) : Option Nat :=
  if c.isDigit then some (c.toNat - 48)
  else if 'a' ≤ c && c ≤ 'f' then some (c.toNat - 87)
  else if 'A' ≤ c && c ≤ 'F' then some (c.toNat - 70)
  else none

/-- The digits of a JSON number component, as value and count. -/
def parseDigits (l : List Char) : Option (Nat × Nat × List Char) :=
  let ds := l.takeWhile Char.isDigit
  if ds = [] then none
  else some (ds.foldl (fun a c => a * 10 + (c.toNat - 48)) 0, ds.length, l.drop ds.length)

/-- The integer part of a JSON number: 0, or a nonzero digit followed by
digits (JSON rejects leading zeros). -/
def parseIntPart : List Char → Option (Nat × List Char)
  | [] => none
  | '0' :: r =>
    match r with
    | c :: _ => if c.isDigit then none else some (0, r)
    | [] => some (0, [])
  | c :: r =>
    if c.isDigit then parseDigits (c :: r) |>.map (fun p => (p.1, p.2.2)) else none

def parseFracPart : List Char → Option (ℚ × List Char)
  | '.' :: r =>
    match parseDigits r with
    | some (v, n, rest) => some ((v : ℚ) / (10 : ℚ) ^ n, rest)
    | none => none
  | l => some (0, l)

def parseExpPart : List Char → Option (ℤ × List Char)
  | c :: r =>
    if c = 'e' || c = 'E' then
      match r with
      | '+' :: r2 => (parseDigits r2).map (fun p => ((p.1 : ℤ), p.2.2))
      | '-' :: r2 => (parseDigits r2).map (fun p => (-(p.1 : ℤ), p.2.2))
      | _ => (parseDigits r).map (fun p => ((p.1 : ℤ), p.2.2))
    else some (0, c :: r)
  | [] => some (0, [])

/-- A JSON number literal. -/
def parseNumber (l : List Char) : Option (ℚ × List Char) :=
  let (sgn, l1) : ℚ × List Char :=
    match l with
    | '-' :: r => (-1, r)
    | _ => (1, l)
  match parseIntPart l1 with
  | none => none
  | some (i, l2) =>
    match parseFracPart l2 with
    | none => none
    | some (f, l3) =>
      match parseExpPart l3 with
      | none => none
      | some (e, l4) => some (sgn * ((i : ℚ) + f) * (10 : ℚ) ^ e, l4)

/-- The body of a JSON string literal, after the opening quote: the decoded
characters and the remainder after the closing quote. -/
def parseStringBody (fuel : Nat) (l : List Char) : Option (List Char × List Char) :=
  match fuel, l with
  | 0, _ => none
  | _, [] => none
  | fuel + 1, c :: r =>
    if c = '"' then some ([], r)
    else if c = '\\' then
      match r with
      | e :: r2 =>
        if e = 'u' then
          match r2 with
          | h1 :: h2 :: h3 :: h4 :: r3 =>
            match hexDigitVal h1, hexDigitVal h2, hexDigitVal h3, hexDigitVal h4 with
            | some a, some b, some c2, some d =>
              (parseStringBody fuel r3).map
                (fun p => (Char.ofNat (((a * 16 + b) * 16 + c2) * 16 + d) :: p.1, p.2))
            | _, _, _, _ => none
          | _ => none
        else
          match
            (if e = '"' then some '"'
             else if e = '\\' then some '\\'
             else if e = '/' then some '/'
             else if e = 'b' then some (Char.ofNat 8)
             else if e = 'f' then some (Char.ofNat 12)
             else if e = 'n' then some '\n'
             else if e = 'r' then some '\r'
             else if e = 't' then some '\t'
             else none) with
          | some d => (parseStringBody fuel r2).map (fun p => (d :: p.1, p.2))
          | none => none
      | [] => none
    else if c.toNat < 32 then none
    else (parseStringBody fuel r).map (fun p => (c :: p.1, p.2))

mutual

/-- One JSON value (fuelled recursive descent; parseJsonL supplies ample
fuel, so on every input of the claims this is JSON.parse). -/
def parseValueF : Nat → List Char → Option (Json × List Char)
  | 0, _ => none
  | fuel + 1, l =>
    match skipWsL l with
    | [] => none
    | '{' :: r =>
      match skipWsL r with
      | '}' :: r2 => some (.obj [], r2)
      | r2 => (parseMembersF fuel r2).map (fun p => (.obj p.1, p.2))
    | '[' :: r =>
      match skipWsL r with
      | ']' :: r2 => some (.arr [], r2)
      | r2 => (parseItemsF fuel r2).map (fun p => (.arr p.1, p.2))
    | '"' :: r =>
      (parseStringBody (r.length + 1) r).map (fun p => (.str (String.mk p.1), p.2))
    | 't' :: r =>
      if "rue".data.isPrefixOf r then some (.bool true, r.drop 3) else none
    | 'f' :: r =>
      if "alse".data.isPrefixOf r then some (.bool false, r.drop 4) else none
    | 'n' :: r =>
      if "ull".data.isPrefixOf r then some (.null, r.drop 3) else none
    | c :: r =>
      if c = '-' || c.isDigit then
        (parseNumber (c :: r)).map (fun p => (.num p.1, p.2))
      else none

/-- The members of a JSON object, starting at the first key (whitespace
already skipped, object known nonempty). -/
def parseMembersF : Nat → List Char → Option (List (String × Json) × List Char)
  | 0, _ => none
  | fuel + 1, l =>
    match l with
    | '"' :: r =>
      match parseStringBody (r.length + 1) r with
      | none => none
      | some (key, r2) =>
        match skipWsL r2 with
        | ':' :: r3 =>
          match parseValueF fuel r3 with
          | none => none
          | some (v, r4) =>
            match skipWsL r4 with
            | ',' :: r5 =>
              (parseMembersF fuel (skipWsL r5)).map
                (fun p => ((String.mk key, v) :: p.1, p.2))
            | '}' :: r5 => some ([(String.mk key, v)], r5)
            | _ => none
        | _ => none
    | _ => none

/-- The items of a JSON array, starting at the first item (array known
nonempty). -/
def parseItemsF : Nat → List Char → Option (List Json × List Char)
  | 0, _ => none
  | fuel + 1, l =>
    match parseValueF fuel l with
    | none => none
    | some (v, r) =>
      match skipWsL r with
      | ',' :: r2 => (parseItemsF fuel r2).map (fun p => (v :: p.1, p.2))
      | ']' :: r2 => some ([v], r2)
      | _ => none

end

/-- JSON.parse on a character list: one value, then only trailing
whitespace. -/
def parseJsonL (l : List Char) : Option Json :=
  match parseValueF (2 * l.length + 8) l with
  | some (j, rest) => if skipWsL rest = [] then some j else none
  | none => none

/- ### Data model (types.ts) -/

inductive Role where
  | user : Role
  | assistant : Role
  deriving DecidableEq

/-- A citation (types.ts Source): uri, title, optional excerpt. -/
structure Source where
  uri : String
  title : String
  content : Option String := none
  deriving DecidableEq

/-- types.ts Message. Optional fields absent at runtime are none. -/
structure Message where
  role : Role
  content : String
  image : Option String := none
  sources : Option (List Source) := none
  timestamp : Nat
  useWebSearch : Option Bool := none
  deriving DecidableEq

/-- types.ts StudySession. The study-aid slots hold the JSON values the
model returned: the source casts the parsed arrays into the slots without
validating the item shapes, so the slots are lists of raw JSON values. -/
structure StudySession where
  id : String
  title : String
  createdAt : Nat
  updatedAt : Nat
  messages : List Message
  flashcards : List Json
  flashcardsTitle : String
  quizItems : List Json
  quizTitle : String
  slides : List Json
  slidesTitle : String
  documentContext : String
  documentSummary : String

inductive StudyMode where
  | chat : StudyMode
  | flashcards : StudyMode
  | quiz : StudyMode
  | slides : StudyMode
  deriving DecidableEq

/- ### Study-aid extraction (App.tsx processResponse, lines 266-303) -/

/-- The condition `parsedJson.k && Array.isArray(parsedJson.k) &&
parsedJson.k.length > 0`: the field is present, an array, and nonempty
(an empty array is truthy but fails the length check; a non-array truthy
value fails Array.isArray; a falsy value fails the first test). -/
def nonEmptyArrayField (j : Json) (k : String) : Option (List Json) :=
  match j.getField k with
  | some (.arr l) => if l.isEmpty then none else some l
  | _ => none

/-- The expression `parsedJson.title || ''` read as a string. A string title
is taken as is (an empty string is falsy and yields the empty string, which
coincides). Every claim exercises only string or absent titles; an absent or
otherwise falsy title yields the empty string as in the source, and other
value kinds are outside the claims and modelled as the empty string. -/
def titleString (j : Json) : String :=
  match j.getField "title" with
  | some (.str s) => s
  | _ => ""

/-- The fallback sentence synthesised when stripping the JSON block leaves
no visible text. -/
def fallbackSentence (title : String) : List Char :=
  "I've created the \"".data ++ title.data ++ "\" for you.".data

/-- The result of the post-stream extraction: the visible text, the three
extracted aid collections, the aid title, and the display mode assigned last
(none when no setStudyMode call ran). -/
structure Extracted where
  finalText : List Char
  newFlashcards : List Json
  newQuizItems : List Json
  newSlides : List Json
  studyAidTitle : String
  modeSet : Option StudyMode

def noExtract (fullText : List Char) : Extracted :=
  ⟨fullText, [], [], [], "", none⟩

/-- processResponse post-processing: find the first fenced json block,
parse it (a parse failure is swallowed and the raw text kept), pull out the
nonempty quiz, flashcards and slides arrays in that order (each assignment
also switching the display mode, so the last one checked wins), and if any
aid was extracted strip the block from the visible text, substituting the
fallback sentence when nothing remains. An empty capture group is falsy in
the source's `jsonMatch && jsonMatch[1]` test, so it skips the parse. -/
def extractAids (fullText : List Char) : Extracted :=
  match jsonBlockMatch fullText with
  | none => noExtract fullText
  | some (whole, inner) =>
    if inner = [] then noExtract fullText
    else
      match parseJsonL inner with
      | none => noExtract fullText
      | some j =>
        let title := titleString j
        let qz := nonEmptyArrayField j "quiz"
        let fl := nonEmptyArrayField j "flashcards"
        let sl := nonEmptyArrayField j "slides"
        let modeSet : Option StudyMode :=
          if sl.isSome then some .slides
          else if fl.isSome then some .flashcards
          else if qz.isSome then some .quiz
          else none
        let generated := qz.isSome || fl.isSome || sl.isSome
        let finalText :=
          if generated then
            let t := trimChars (replaceFirst fullText whole)
            if t = [] then fallbackSentence title else t
          else fullText
        ⟨finalText, fl.getD [], qz.getD [], sl.getD [], title, modeSet⟩

/- ### Streaming updates (App.tsx processResponse, lines 243-263) -/

/-- The empty assistant placeholder inserted before the stream starts. -/
def placeholderMessage (t0 : Nat) : Message :=
  { role := .assistant, content := "", sources := some [], timestamp := t0 }

/-- Insert the placeholder into every session with the target id. -/
def appendPlaceholder (sid : String) (t0 : Nat) (sessions : List StudySession) :
    List StudySession :=
  sessions.map fun s =>
    if s.id = sid then { s with messages := s.messages ++ [placeholderMessage t0] } else s

/-- The body of the onChunk updater on one matching session: read the last
message (a read of `messages[messages.length - 1].role`, which throws a
TypeError when the message list is empty — modelled as none), and append the
chunk to its content when it is an assistant message, else leave the session
unchanged. -/
def chunkSessionUpdate (chunkText : String) (s : StudySession) : Option StudySession :=
  match s.messages.getLast? with
  | none => none
  | some last =>
    if last.role = .assistant then
      some { s with
              messages := s.messages.dropLast ++ [{ last with content := last.content ++ chunkText }] }
    else some s

/-- The onChunk state update over the whole session list: sessions with
another id are untouched; a thrown TypeError aborts the map (none). -/
def onChunkUpdate (sid : String) (chunkText : String) :
    List StudySession → Option (List StudySession)
  | [] => some []
  | s :: rest =>
    match (if s.id = sid then chunkSessionUpdate chunkText s else some s) with
    | none => none
    | some s' => (onChunkUpdate sid chunkText rest).map (s' :: ·)

/-- The streaming loop of geminiService.getChatResponse (lines 182-186
restricted to text): chunks with empty text are skipped, the others are
accumulated into fullText and forwarded to onChunk. Returns the accumulated
text and the session list, or none when an onChunk update threw. -/
def runStream (sid : String) : List String → List Char → List StudySession →
    Option (List Char × List StudySession)
  | [], acc, ss => some (acc, ss)
  | c :: rest, acc, ss =>
    if c = "" then runStream sid rest acc ss
    else
      match onChunkUpdate sid c ss with
      | none => none
      | some ss' => runStream sid rest (acc ++ c.data) ss'

/- ### Final reconciliation (App.tsx processResponse, lines 305-323) -/

/-- The final update of one matching session: replace the last message's
content and sources, replace each aid slot and its title when the
corresponding extracted array is nonempty, and stamp updatedAt. The source
reads `messages[messages.length - 1]` and spreads it; sessions reaching this
point always hold the placeholder, so the empty case (where the source would
spread undefined into a malformed message) is left as the identity and is
exercised by no claim. -/
def reconcileSession (ex : Extracted) (sources : List Source) (now : Nat)
    (s : StudySession) : StudySession :=
  match s.messages.getLast? with
  | none => s
  | some last =>
    { s with
      messages := s.messages.dropLast ++
        [{ last with content := String.mk ex.finalText, sources := some sources }],
      flashcards := if ex.newFlashcards.length > 0 then ex.newFlashcards else s.flashcards,
      flashcardsTitle := if ex.newFlashcards.length > 0 then ex.studyAidTitle else s.flashcardsTitle,
      quizItems := if ex.newQuizItems.length > 0 then ex.newQuizItems else s.quizItems,
      quizTitle := if ex.newQuizItems.length > 0 then ex.studyAidTitle else s.quizTitle,
      slides := if ex.newSlides.length > 0 then ex.newSlides else s.slides,
      slidesTitle := if ex.newSlides.length > 0 then ex.studyAidTitle else s.slidesTitle,
      updatedAt := now }

def reconcile (sid : String) (ex : Extracted) (sources : List Source) (now : Nat)
    (sessions : List StudySession) : List StudySession :=
  sessions.map fun s => if s.id = sid then reconcileSession ex sources now s else s

/-- The whole processResponse, over an abstract stream outcome: insert the
placeholder, then on a stream error (the upstream call throwing) replace the
placeholder with the error text and surface one notification; on success run
the chunk updates, extract the study aids from the accumulated text and
reconcile, surfacing no notification. The result is (sessions, display mode,
notification messages); none models the unhandled path where a chunk update
threw mid-stream, which no claim exercises. -/
def processResponse (sid : String) (t0 : Nat)
    (stream : Except String (List String × List Source)) (now : Nat)
    (sessions : List StudySession) (mode : StudyMode) :
    Option (List StudySession × StudyMode × List String) :=
  let ss0 := appendPlaceholder sid t0 sessions
  match stream with
  | .error e =>
    some (ss0.map (fun s =>
      if s.id = sid then
        { s with messages := s.messages.dropLast ++
            [{ role := .assistant, content := e, timestamp := now }] }
      else s), mode, [e])
  | .ok (chunks, sources) =>
    match runStream sid chunks [] ss0 with
    | none => none
    | some (fullText, ss1) =>
      let ex := extractAids fullText
      some (reconcile sid ex sources now ss1, ex.modeSet.getD mode, [])

/- ### Session mutations outside the reconciler (App.tsx) -/

/-- handleSendMessage's transcript update (lines 357-368): append the user
message to the target session and, when it was the session's first message,
retitle the session from the prompt. No updatedAt stamp appears in the
source. -/
def appendUserMessage (sid : String) (userMessage : Message) (titleContent : String)
    (sessions : List StudySession) : List StudySession :=
  sessions.map fun s =>
    if s.id = sid then
      { s with
        messages := s.messages ++ [userMessage],
        title := if s.messages.length = 0 then
            (if titleContent.length > 40 then titleContent.take 40 ++ "..." else titleContent)
          else s.title }
    else s

/-- A Partial StudySession: the fields an object-spread update may carry. -/
structure PartialSession where
  id : Option String := none
  title : Option String := none
  createdAt : Option Nat := none
  updatedAt : Option Nat := none
  messages : Option (List Message) := none
  flashcards : Option (List Json) := none
  flashcardsTitle : Option String := none
  quizItems : Option (List Json) := none
  quizTitle : Option String := none
  slides : Option (List Json) := none
  slidesTitle : Option String := none
  documentContext : Option String := none
  documentSummary : Option String := none

/-- `{ ...s, ...p }`. -/
def applyPartial (s : StudySession) (p : PartialSession) : StudySession :=
  { id := p.id.getD s.id
    title := p.title.getD s.title
    createdAt := p.createdAt.getD s.createdAt
    updatedAt := p.updatedAt.getD s.updatedAt
    messages := p.messages.getD s.messages
    flashcards := p.flashcards.getD s.flashcards
    flashcardsTitle := p.flashcardsTitle.getD s.flashcardsTitle
    quizItems := p.quizItems.getD s.quizItems
    quizTitle := p.quizTitle.getD s.quizTitle
    slides := p.slides.getD s.slides
    slidesTitle := p.slidesTitle.getD s.slidesTitle
    documentContext := p.documentContext.getD s.documentContext
    documentSummary := p.documentSummary.getD s.documentSummary }

/-- The argument of updateActiveSession: a partial-field merge or a full
transform function. -/
inductive SessionUpdate where
  | partialFields (p : PartialSession) : SessionUpdate
  | transform (f : StudySession → StudySession) : SessionUpdate

/-- App.tsx updateActiveSession (lines 211-222): with no active session the
list is untouched; otherwise the active session is replaced by the update's
result with updatedAt stamped. -/
def updateActiveSession (activeSessionId : Option String) (u : SessionUpdate)
    (now : Nat) (sessions : List StudySession) : List StudySession :=
  match activeSessionId with
  | none => sessions
  | some aid =>
    sessions.map fun s =>
      if s.id = aid then
        { (match u with
           | .partialFields p => applyPartial s p
           | .transform f => f s) with updatedAt := now }
      else s

/-- App.tsx handleDeleteMessage (lines 432-435): truncate the active
session's transcript before the given index. -/
def handleDeleteMessage (activeSessionId : Option String) (messageIndex : Nat)
    (now : Nat) (sessions : List StudySession) : List StudySession :=
  updateActiveSession activeSessionId
    (.transform fun s => { s with messages := s.messages.take messageIndex }) now sessions

/-- App.tsx handleFileUpload's summary update (line 413): set the document
summary of the target session. No updatedAt stamp appears in the source. -/
def setDocumentSummary (sid : String) (summary : String)
    (sessions : List StudySession) : List StudySession :=
  sessions.map fun s => if s.id = sid then { s with documentSummary := summary } else s

/- ### Session deletion (App.tsx handleDeleteSession, lines 391-400) -/

/-- Stable insertion into a list sorted by decreasing updatedAt: the JS sort
comparator `(a, b) => b.updatedAt - a.updatedAt` orders by decreasing
updatedAt and (the sort being stable) keeps tied elements in list order, so
an inserted earlier element passes a later one only when the later one is
strictly fresher. -/
def insertByUpdatedAt (s : StudySession) : List StudySession → List StudySession
  | [] => [s]
  | t :: ts => if s.updatedAt < t.updatedAt then t :: insertByUpdatedAt s ts
               else s :: t :: ts

/-- `[...remaining].sort((a, b) => b.updatedAt - a.updatedAt)`. -/
def sortByUpdatedAtDesc : List StudySession → List StudySession
  | [] => []
  | s :: rest => insertByUpdatedAt s (sortByUpdatedAtDesc rest)

/-- handleDeleteSession: drop the session with the given id; when it was the
active one, the head of the remaining list sorted by decreasing updatedAt
becomes active (none when nothing remains). Returns (sessions, active id). -/
def handleDeleteSession (sessionId : String) (activeSessionId : Option String)
    (sessions : List StudySession) : List StudySession × Option String :=
  let remaining := sessions.filter fun s => s.id ≠ sessionId
  let newActive :=
    if activeSessionId = some sessionId then
      (sortByUpdatedAtDesc remaining).head?.map (·.id)
    else activeSessionId
  (remaining, newActive)

/- ### Source deduplication (geminiService.getChatResponse, line 212) -/

/-- JavaScript Map.prototype.set: setting an existing key replaces its value
in place, keeping the key's original insertion position; a new key is
appended. -/
def mapSet (m : List (String × Source)) (k : String) (v : Source) :
    List (String × Source) :=
  if m.any (fun p => p.1 = k) then
    m.map fun p => if p.1 = k then (k, v) else p
  else m ++ [(k, v)]

/-- `Array.from(new Map(allSources.map(s => [s.uri, s])).values())`: the Map
constructor runs set on each (uri, source) pair in order, then the values
are read out in key insertion order. -/
def dedupSources (l : List Source) : List Source :=
  (l.foldl (fun m s => mapSet m s.uri s) []).map Prod.snd

/- ### Voice command dispatch (useVoiceCommands.processTranscript) -/

/-- The observable outcome of processTranscript: which action ran. Every
branch that runs an action also stops listening; noop leaves the listening
session alive, and crashed (a thrown TypeError) aborts the handler before
stopListening is reached, also leaving it alive. inheritedHit records the
static branch firing on an inherited Object.prototype entry rather than an
authored command. -/
inductive DispatchResult where
  | staticHit (phrase : String) : DispatchResult
  | inheritedHit (phrase : String) : DispatchResult
  | dynamicHit (commandIndex : Nat) (keyword : String) (arg : String) : DispatchResult
  | reservedStop : DispatchResult
  | crashed : DispatchResult
  | noop : DispatchResult
  deriving DecidableEq

/-- The string-keyed own properties that Object.prototype contributes to
every plain object literal in the browsers this app targets, apart from the
accessor property __proto__: all of these hold functions, so reading one
through the table yields a truthy, callable value. -/
def objectPrototypeMethods : List String :=
  ["constructor", "hasOwnProperty", "isPrototypeOf", "propertyIsEnumerable",
   "toLocaleString", "toString", "valueOf",
   "__defineGetter__", "__defineSetter__", "__lookupGetter__", "__lookupSetter__"]

/-- Outcome of the JavaScript property read `staticCommands[lowerCaseText]`
followed by its truthiness test and call. The table is a plain object
literal, so the lookup walks the prototype chain: an own (authored) key
wins first; otherwise an inherited Object.prototype method is found — a
truthy function, so the branch runs it and then stops listening; the
inherited accessor __proto__ yields the (truthy, non-callable) prototype
object, so invoking it throws a TypeError; any other name reads undefined,
which is falsy, and the branch is skipped. -/
inductive StaticLookup where
  | own : StaticLookup
  | inheritedCallable : StaticLookup
  | inheritedThrows : StaticLookup
  | absent : StaticLookup
  deriving DecidableEq

def staticLookup (staticKeys : List String) (k : String) : StaticLookup :=
  if k ∈ staticKeys then .own
  else if k ∈ objectPrototypeMethods then .inheritedCallable
  else if k = "__proto__" then .inheritedThrows
  else .absent

/-- The inner keyword loop of one dynamic command: the first keyword such
that keyword-plus-space prefixes the lower-cased trimmed transcript wins,
and the argument is the raw transcript with that many leading characters
removed (`text.substring(keywordWithSpace.length)` acts on the original
text). -/
def searchKeywords (ci : Nat) (lower text : List Char) :
    List String → Option (Nat × String × List Char)
  | [] => none
  | kw :: rest =>
    if (kw.data ++ [' ']).isPrefixOf lower then
      some (ci, kw, text.drop (kw.data.length + 1))
    else searchKeywords ci lower text rest

/-- The outer loop over the dynamic command table. -/
def searchDynamic (ci : Nat) (lower text : List Char) :
    List (List String) → Option (Nat × String × List Char)
  | [] => none
  | kws :: rest =>
    match searchKeywords ci lower text kws with
    | some r => some r
    | none => searchDynamic (ci + 1) lower text rest

def lowerTrim (text : String) : List Char := lowerChars (trimChars text.data)

/-- processTranscript (useVoiceCommands.ts lines 68-96): the property
lookup on the static table first (own keys and the inherited
Object.prototype entries, per staticLookup), then the dynamic prefix rules
in order, then the reserved stop phrases; anything else does nothing. -/
def processTranscript (staticKeys : List String) (dyn : List (List String))
    (text : String) : DispatchResult :=
  let lower := lowerTrim text
  match staticLookup staticKeys (String.mk lower) with
  | .own => .staticHit (String.mk lower)
  | .inheritedCallable => .inheritedHit (String.mk lower)
  | .inheritedThrows => .crashed
  | .absent =>
    match searchDynamic 0 lower text.data dyn with
    | some (ci, kw, arg) => .dynamicHit ci kw (String.mk arg)
    | none =>
      if lower = "stop listening".data || lower = "cancel".data then .reservedStop
      else .noop

/-- Whether the dispatch outcome called stopListening: every completed
match does; a no-op does not, and the thrown TypeError aborts the handler
before the stopListening call. -/
def stopsListening : DispatchResult → Bool
  | .noop => false
  | .crashed => false
  | _ => true

/-- The listening flag after processing: stopListening clears it, a no-op
or an aborting throw leaves it. -/
def listeningAfter (r : DispatchResult) (wasListening : Bool) : Bool :=
  if stopsListening r then false else wasListening

/- ### Persistence (sessionService.ts)

localStorage holds the serialized envelope; JSON.stringify and JSON.parse
are inverse external built-ins on JSON-representable values, so the store is
modelled as holding the parsed JSON value itself (none when the key is
absent). The encode functions below spell out the JSON shape JSON.stringify
produces for the runtime session objects (optional fields absent at runtime
are omitted, as stringify drops undefined properties); the decode functions
reconstruct the typed values, which on the parsed data is the identity the
source's unchecked cast relies on. -/

def CURRENT_DATA_VERSION : ℚ := 1

def encodeSource (s : Source) : Json :=
  .obj ([("uri", .str s.uri), ("title", .str s.title)] ++
    (match s.content with
     | some c => [("content", .str c)]
     | none => []))

def encodeRole : Role → Json
  | .user => .str "user"
  | .assistant => .str "assistant"

def encodeMessage (m : Message) : Json :=
  .obj ([("role", encodeRole m.role), ("content", .str m.content)] ++
    (match m.image with
     | some i => [("image", .str i)]
     | none => []) ++
    (match m.sources with
     | some l => [("sources", .arr (l.map encodeSource))]
     | none => []) ++
    [("timestamp", .num m.timestamp)] ++
    (match m.useWebSearch with
     | some b => [("useWebSearch", .bool b)]
     | none => []))

def encodeSession (s : StudySession) : Json :=
  .obj [("id", .str s.id), ("title", .str s.title),
        ("createdAt", .num s.createdAt), ("updatedAt", .num s.updatedAt),
        ("messages", .arr (s.messages.map encodeMessage)),
        ("flashcards", .arr s.flashcards), ("flashcardsTitle", .str s.flashcardsTitle),
        ("quizItems", .arr s.quizItems), ("quizTitle", .str s.quizTitle),
        ("slides", .arr s.slides), ("slidesTitle", .str s.slidesTitle),
        ("documentContext", .str s.documentContext),
        ("documentSummary", .str s.documentSummary)]

def decodeStr : Option Json → Option String
  | some (.str s) => some s
  | _ => none

def decodeNat : Option Json → Option Nat
  | some (.num q) => if q.den = 1 ∧ 0 ≤ q.num then some q.num.toNat else none
  | _ => none

def decodeJsonList : Option Json → Option (List Json)
  | some (.arr l) => some l
  | _ => none

/-- Option-valued map over a list, failing when any element fails. -/
def mapMOption {α β : Type} (g : α → Option β) : List α → Option (List β)
  | [] => some []
  | x :: rest =>
    match g x with
    | none => none
    | some y => (mapMOption g rest).map (y :: ·)

def decodeSource (j : Json) : Option Source :=
  match decodeStr (j.getField "uri"), decodeStr (j.getField "title") with
  | some u, some t =>
    match j.getField "content" with
    | some (.str c) => some ⟨u, t, some c⟩
    | some _ => none
    | none => some ⟨u, t, none⟩
  | _, _ => none

def decodeRole : Option Json → Option Role
  | some (.str s) => if s = "user" then some .user
                     else if s = "assistant" then some .assistant else none
  | _ => none

def decodeMessage (j : Json) : Option Message :=
  match decodeRole (j.getField "role"), decodeStr (j.getField "content"),
        decodeNat (j.getField "timestamp") with
  | some r, some c, some t =>
    match (match j.getField "image" with
           | some (.str i) => some (some i)
           | none => some none
           | some _ => none),
          (match j.getField "sources" with
           | some (.arr l) => (mapMOption decodeSource l).map some
           | none => some none
           | some _ => none),
          (match j.getField "useWebSearch" with
           | some (.bool b) => some (some b)
           | none => some none
           | some _ => none) with
    | some oi, some os, some ob => some ⟨r, c, oi, os, t, ob⟩
    | _, _, _ => none
  | _, _, _ => none

def decodeSession (j : Json) : Option StudySession :=
  match decodeStr (j.getField "id"), decodeStr (j.getField "title"),
        decodeNat (j.getField "createdAt"), decodeNat (j.getField "updatedAt") with
  | some i, some t, some ca, some ua =>
    match decodeJsonList (j.getField "messages") with
    | none => none
    | some ms =>
      match mapMOption decodeMessage ms with
      | none => none
      | some msgs =>
        match decodeJsonList (j.getField "flashcards"), decodeStr (j.getField "flashcardsTitle"),
              decodeJsonList (j.getField "quizItems"), decodeStr (j.getField "quizTitle"),
              decodeJsonList (j.getField "slides"), decodeStr (j.getField "slidesTitle"),
              decodeStr (j.getField "documentContext"), decodeStr (j.getField "documentSummary") with
        | some fc, some fct, some qi, some qt, some sl, some slt, some dc, some ds =>
          some ⟨i, t, ca, ua, msgs, fc, fct, qi, qt, sl, slt, dc, ds⟩
        | _, _, _, _, _, _, _, _ => none
  | _, _, _, _ => none

/-- JavaScript truthiness of a JSON value, for migrateData's `!data`.
JSON.parse never yields undefined, so the falsy values are null, false, 0
and the empty string. -/
def jsTruthy : Json → Bool
  | .null => false
  | .bool b => b
  | .num q => q ≠ 0
  | .str s => s ≠ ""
  | .arr _ => true
  | .obj _ => true

def hasField (j : Json) (k : String) : Bool :=
  match j with
  | .obj fields => fields.any fun p => p.1 = k
  | _ => false

/-- sessionService.migrateData (lines 19-54), at the JSON level: a falsy
payload or an unknown shape yields the empty array; a legacy plain array is
returned as is; a versioned envelope yields its sessions value whatever the
numeric version (equal, older and newer versions all return data.sessions;
a non-numeric version falls through to the unknown-format branch because
none of the three comparisons holds). -/
def migrateData (data : Json) : Json :=
  if ¬ jsTruthy data then .arr []
  else match data with
  | .arr items => .arr items
  | .obj _ =>
    if hasField data "version" ∧ hasField data "sessions" then
      match data.getField "version" with
      | some (.num v) =>
        if v = CURRENT_DATA_VERSION then (data.getField "sessions").getD .null
        else if v < CURRENT_DATA_VERSION then (data.getField "sessions").getD .null
        else (data.getField "sessions").getD .null
      | _ => .arr []
    else .arr []
  | _ => .arr []

/-- sessionService.loadSessions (lines 57-85): an absent key yields the
empty list; otherwise the parsed payload is migrated and, when the migrated
value passes the Array.isArray validation, its elements are the sessions.
The source returns that array through an unchecked cast; decoding
reconstructs the typed sessions, and a value not of session shape lies
outside the typed model and yields the empty list. -/
def loadSessions (store : Option Json) : List StudySession :=
  match store with
  | none => []
  | some data =>
    match migrateData data with
    | .arr items =>
      match mapMOption decodeSession items with
      | some sessions => sessions
      | none => []
    | _ => []

/-- sessionService.saveSessions (lines 87-98): serialize the versioned
envelope into the store. -/
def saveSessions (sessions : List StudySession) : Option Json :=
  some (.obj [("version", .num CURRENT_DATA_VERSION),
              ("sessions", .arr (sessions.map encodeSession))])

/- ### Derived forms used by the statements -/

/-- The concatenation of the stream fragments, as characters. -/
def flatText (chunks : List String) : List Char := (chunks.map String.data).flatten

/-- A session as it stands mid-stream: the original transcript followed by
the in-flight assistant message holding the accumulated text. With the
empty accumulator this is exactly the placeholder insertion. -/
def withStreamMsg (t0 : Nat) (acc : String) (s : StudySession) : StudySession :=
  { s with messages := s.messages ++
      [{ role := .assistant, content := acc, sources := some [], timestamp := t0 }] }

/-- The dynamic command table flattened in visit order: the nested loops of
processTranscript visit (command index, keyword) pairs exactly in this
order. -/
def flatKeywordsFrom (ci : Nat) : List (List String) → List (Nat × String)
  | [] => []
  | kws :: rest => kws.map (fun kw => (ci, kw)) ++ flatKeywordsFrom (ci + 1) rest

def flatKeywords (dyn : List (List String)) : List (Nat × String) :=
  flatKeywordsFrom 0 dyn

/-- Whether a keyword-with-space prefixes the lower-cased trimmed
transcript. -/
def kwMatches (lower : List Char) (q : Nat × String) : Bool :=
  (q.2.data ++ [' ']).isPrefixOf lower

/- ### Concrete data for witnesses and counterexamples -/

def sampleMsg : Message :=
  { role := .user, content := "hi", timestamp := 1 }

def sampleSession : StudySession :=
  { id := "s1", title := "t", createdAt := 0, updatedAt := 5,
    messages := [sampleMsg],
    flashcards := [], flashcardsTitle := "", quizItems := [], quizTitle := "",
    slides := [], slidesTitle := "", documentContext := "", documentSummary := "" }

def olderSession : StudySession :=
  { sampleSession with id := "s0", updatedAt := 3 }

/-- A session whose transcript the user has emptied while a stream is
live. -/
def noMessagesSession : StudySession :=
  { sampleSession with id := "s2", messages := [] }

/-- The phrases of the app's authored static voice command table
(App.tsx lines 472-487). -/
def appVoiceCommandKeys : List String :=
  ["new session", "start new chat", "start over", "show flashcards",
   "open quiz", "view slides", "show presentation", "go to chat",
   "next", "next card", "next slide", "previous", "previous card",
   "previous slide"]

/-- The keyword lists of the app's dynamic voice command table
(App.tsx lines 489-494). -/
def appDynamicKeywords : List (List String) :=
  [["ask", "say", "tell me", "search for", "what is", "who is", "explain"]]

def c1Card : Json :=
  .obj [("question", .str "Q"), ("answer", .str "A"), ("context", .str "C")]

def c1Json : Json :=
  .obj [("title", .str "T"), ("flashcards", .arr [c1Card])]

def c4QuizItem : Json := .obj [("question", .str "q1")]

def c4Slide : Json := .obj [("title", .str "sl"), ("content", .arr [.str "p"])]

def c4Json : Json :=
  .obj [("title", .str "X"), ("quiz", .arr [c4QuizItem]),
        ("flashcards", .arr [c1Card]), ("slides", .arr [c4Slide])]

/-- A stream that is exactly one fenced json block carrying flashcards. -/
def c1StreamChunk : String :=
  "```json\n\x7b\"title\":\"T\",\"flashcards\":[\x7b\"question\":\"Q\",\"answer\":\"A\",\"context\":\"C\"\x7d]\x7d\n```"

def c1Inner : List Char :=
  "\x7b\"title\":\"T\",\"flashcards\":[\x7b\"question\":\"Q\",\"answer\":\"A\",\"context\":\"C\"\x7d]\x7d".data

/-- A stream whose fenced block holds malformed JSON (trailing comma). -/
def c3StreamChunk : String := "```json\n\x7b\"a\":1,\x7d\n```"

def c3Inner : List Char := "\x7b\"a\":1,\x7d".data

/-- A stream whose fenced block carries all three aid kinds at once. -/
def c4StreamChunk : String :=
  "```json\n\x7b\"title\":\"X\",\"quiz\":[\x7b\"question\":\"q1\"\x7d],\"flashcards\":[\x7b\"question\":\"Q\",\"answer\":\"A\",\"context\":\"C\"\x7d],\"slides\":[\x7b\"title\":\"sl\",\"content\":[\"p\"]\x7d]\x7d\n```"

def c4Inner : List Char :=
  "\x7b\"title\":\"X\",\"quiz\":[\x7b\"question\":\"q1\"\x7d],\"flashcards\":[\x7b\"question\":\"Q\",\"answer\":\"A\",\"context\":\"C\"\x7d],\"slides\":[\x7b\"title\":\"sl\",\"content\":[\"p\"]\x7d]\x7d".data

/- ## Theorems -/

/- ### Source deduplication (claim C5) -/

theorem mapSet_fresh (m : List (String × Source)) (k : String) (v : Source)
    (h : ∀ p ∈ m, p.1 ≠ k) : mapSet m k v = m ++ [(k, v)] := by
  have : m.any (fun p => p.1 = k) = false := by
    simp only [List.any_eq_false, decide_eq_true_eq]
    exact h
  simp [mapSet, this]

theorem foldl_mapSet_fresh : ∀ (l : List Source) (m : List (String × Source)),
    (l.map Source.uri).Nodup → (∀ s ∈ l, ∀ p ∈ m, p.1 ≠ s.uri) →
    l.foldl (fun m s => mapSet m s.uri s) m = m ++ l.map (fun s => (s.uri, s)) := by
  intro l
  induction l with
  | nil => intro m _ _; simp
  | cons s rest ih =>
    intro m hnd hfresh
    have hstep : mapSet m s.uri s = m ++ [(s.uri, s)] :=
      mapSet_fresh m s.uri s (fun p hp => hfresh s (List.mem_cons_self s rest) p hp)
    have hnd' : (rest.map Source.uri).Nodup := (List.nodup_cons.mp hnd).2
    have hhead : s.uri ∉ rest.map Source.uri := (List.nodup_cons.mp hnd).1
    have hfresh' : ∀ t ∈ rest, ∀ p ∈ m ++ [(s.uri, s)], p.1 ≠ t.uri := by
      intro t ht p hp
      rcases List.mem_append.mp hp with hm | hone
      · exact hfresh t (List.mem_cons_of_mem s ht) p hm
      · have hp1 : p.1 = s.uri := by
          rcases List.mem_singleton.mp hone with rfl
          rfl
        rw [hp1]
        intro hcontra
        exact hhead (hcontra ▸ List.mem_map_of_mem Source.uri ht)
    calc (s :: rest).foldl (fun m s => mapSet m s.uri s) m
        = rest.foldl (fun m s => mapSet m s.uri s) (m ++ [(s.uri, s)]) := by
          simp [List.foldl_cons, hstep]
      _ = (m ++ [(s.uri, s)]) ++ rest.map (fun s => (s.uri, s)) := ih _ hnd' hfresh'
      _ = m ++ (s :: rest).map (fun s => (s.uri, s)) := by simp

/-- Claim C5, corrected. Deduplication of the collected citation sources by
URI keeps, for each URI, the LAST-seen entry (the JavaScript Map constructor
overwrites the value of an existing key), placed at the first occurrence's
position; lists of sources with pairwise distinct URIs pass through
unchanged, in order. -/
theorem C5_dedup_by_uri :
    (∀ l : List Source, (l.map Source.uri).Nodup → dedupSources l = l) ∧
    (∀ s1 s2 : Source, s1.uri = s2.uri → dedupSources [s1, s2] = [s2]) := by
  constructor
  · intro l hnd
    have h1 := foldl_mapSet_fresh l [] hnd (by intro s _ p hp; simp at hp)
    have h2 : (Prod.snd ∘ fun s : Source => (s.uri, s)) = id := rfl
    simp [dedupSources, h1, h2]
  · intro s1 s2 h
    simp [dedupSources, mapSet, h]

/-- Claim C5 as stated is false: two citation chunks with the same URI and
different titles collapse to one entry bearing the SECOND title, not the
first-seen one. -/
theorem C5_counterexample :
    dedupSources [⟨"u", "A", none⟩, ⟨"u", "B", none⟩] = [⟨"u", "B", none⟩] ∧
    ({ uri := "u", title := "B", content := none : Source }).title ≠ "A" := by
  refine ⟨rfl, ?_⟩
  simp

/-- Closed instance of C5_dedup_by_uri: a duplicated URI collapses to the
last entry, and a two-element distinct-URI list is preserved. -/
theorem C5_dedup_by_uri_witness :
    dedupSources [⟨"u", "A", none⟩, ⟨"u", "C", none⟩] = [⟨"u", "C", none⟩] ∧
    dedupSources [⟨"u", "A", none⟩, ⟨"v", "B", none⟩] =
      [⟨"u", "A", none⟩, ⟨"v", "B", none⟩] := by
  constructor
  · exact C5_dedup_by_uri.2 ⟨"u", "A", none⟩ ⟨"u", "C", none⟩ rfl
  · exact C5_dedup_by_uri.1 [⟨"u", "A", none⟩, ⟨"v", "B", none⟩] (by simp)

/- ### Session deletion (claim C7) -/

theorem mem_insertByUpdatedAt {x s : StudySession} :
    ∀ {l : List StudySession}, x ∈ insertByUpdatedAt s l ↔ x = s ∨ x ∈ l := by
  intro l
  induction l with
  | nil => simp [insertByUpdatedAt]
  | cons t ts ih =>
    by_cases h : s.updatedAt < t.updatedAt
    · simp only [insertByUpdatedAt, if_pos h, List.mem_cons, ih]
      tauto
    · simp only [insertByUpdatedAt, if_neg h, List.mem_cons]

theorem mem_sortByUpdatedAtDesc {x : StudySession} :
    ∀ {l : List StudySession}, x ∈ sortByUpdatedAtDesc l ↔ x ∈ l := by
  intro l
  induction l with
  | nil => simp [sortByUpdatedAtDesc]
  | cons s rest ih =>
    simp only [sortByUpdatedAtDesc, mem_insertByUpdatedAt, ih, List.mem_cons]

theorem head_sortByUpdatedAtDesc_max :
    ∀ (l : List StudySession), l ≠ [] →
    ∃ m, (sortByUpdatedAtDesc l).head? = some m ∧ m ∈ l ∧
      ∀ t ∈ l, t.updatedAt ≤ m.updatedAt := by
  intro l
  induction l with
  | nil => intro h; exact absurd rfl h
  | cons s rest ih =>
    intro _
    by_cases hrestnil : rest = []
    · subst hrestnil
      exact ⟨s, by simp [sortByUpdatedAtDesc, insertByUpdatedAt], by simp, by simp⟩
    · obtain ⟨m, hmhead, hmmem, hmmax⟩ := ih hrestnil
      obtain ⟨ts, hts⟩ : ∃ ts, sortByUpdatedAtDesc rest = m :: ts := by
        cases hsort : sortByUpdatedAtDesc rest with
        | nil => rw [hsort] at hmhead; simp at hmhead
        | cons a as =>
          have ha : a = m := by rw [hsort] at hmhead; simpa using hmhead
          exact ⟨as, by rw [ha]⟩
      by_cases hlt : s.updatedAt < m.updatedAt
      · refine ⟨m, ?_, List.mem_cons_of_mem s hmmem, ?_⟩
        · simp [sortByUpdatedAtDesc, hts, insertByUpdatedAt, hlt]
        · intro t ht
          rcases List.mem_cons.mp ht with rfl | hmem2
          · exact le_of_lt hlt
          · exact hmmax t hmem2
      · refine ⟨s, ?_, List.mem_cons_self s rest, ?_⟩
        · simp [sortByUpdatedAtDesc, hts, insertByUpdatedAt, hlt]
        · intro t ht
          rcases List.mem_cons.mp ht with rfl | hmem2
          · exact le_rfl
          · exact le_trans (hmmax t hmem2) (not_lt.mp hlt)

/-- Claim C7. Deleting a session removes exactly the sessions bearing that
id and keeps every other one; when the deleted session was active and
sessions remain, the new active session is a remaining one of maximal
updatedAt (so with two sessions, the other one); when nothing remains, the
active session becomes none. -/
theorem C7_delete_session (sessions : List StudySession) (sid : String)
    (activeId : Option String) :
    (∀ s ∈ (handleDeleteSession sid activeId sessions).1, s ∈ sessions ∧ s.id ≠ sid) ∧
    (∀ s ∈ sessions, s.id ≠ sid → s ∈ (handleDeleteSession sid activeId sessions).1) ∧
    (activeId = some sid → (handleDeleteSession sid activeId sessions).1 = [] →
      (handleDeleteSession sid activeId sessions).2 = none) ∧
    (activeId = some sid → (handleDeleteSession sid activeId sessions).1 ≠ [] →
      ∃ m ∈ (handleDeleteSession sid activeId sessions).1,
        (handleDeleteSession sid activeId sessions).2 = some m.id ∧
        ∀ t ∈ (handleDeleteSession sid activeId sessions).1,
          t.updatedAt ≤ m.updatedAt) := by
  refine ⟨?_, ?_, ?_, ?_⟩
  · intro s hs
    have := List.mem_filter.mp hs
    refine ⟨this.1, by simpa using this.2⟩
  · intro s hs hne
    exact List.mem_filter.mpr ⟨hs, by simpa using hne⟩
  · intro hact hempty
    have h1 : sessions.filter (fun s => s.id ≠ sid) = [] := hempty
    show (if activeId = some sid then
        (sortByUpdatedAtDesc (sessions.filter fun s => s.id ≠ sid)).head?.map (·.id)
      else activeId) = none
    rw [hact, if_pos rfl, h1]
    rfl
  · intro hact hne
    have hne' : sessions.filter (fun s => s.id ≠ sid) ≠ [] := hne
    obtain ⟨m, hhead, hmem, hmax⟩ := head_sortByUpdatedAtDesc_max _ hne'
    refine ⟨m, hmem, ?_, fun t ht => hmax t ht⟩
    show (if activeId = some sid then
        (sortByUpdatedAtDesc (sessions.filter fun s => s.id ≠ sid)).head?.map (·.id)
      else activeId) = some m.id
    rw [hact, if_pos rfl, hhead]
    rfl

/-- Closed instance of C7_delete_session: deleting the active one of two
sessions makes the other (the one with the larger updatedAt) active. -/
theorem C7_delete_session_witness :
    ∃ m ∈ (handleDeleteSession "s0" (some "s0") [sampleSession, olderSession]).1,
      (handleDeleteSession "s0" (some "s0") [sampleSession, olderSession]).2 = some m.id ∧
      ∀ t ∈ (handleDeleteSession "s0" (some "s0") [sampleSession, olderSession]).1,
        t.updatedAt ≤ m.updatedAt :=
  (C7_delete_session [sampleSession, olderSession] "s0" (some "s0")).2.2.2 rfl
    (by simp [handleDeleteSession, sampleSession, olderSession])

/- ### updatedAt stamping (claim C8) -/

/-- Claim C8, corrected. Of the session mutations, finalizing the reconciled
message and the two updateActiveSession forms (partial-field merge and full
transform) stamp updatedAt; appending a user message, appending a stream
fragment to the in-flight assistant message, and the document-summary update
leave updatedAt unchanged. -/
theorem C8_updatedAt_stamping :
    (∀ (sessions : List StudySession) (aid : String) (u : SessionUpdate) (now i : Nat)
        (s : StudySession), sessions[i]? = some s → s.id = aid →
      ((updateActiveSession (some aid) u now sessions)[i]?).map (·.updatedAt) = some now) ∧
    (∀ (ex : Extracted) (sources : List Source) (now : Nat) (s : StudySession),
      s.messages ≠ [] → (reconcileSession ex sources now s).updatedAt = now) ∧
    (∀ (sid : String) (m : Message) (tc : String) (sessions : List StudySession) (i : Nat),
      ((appendUserMessage sid m tc sessions)[i]?).map (·.updatedAt) =
        (sessions[i]?).map (·.updatedAt)) ∧
    (∀ (c : String) (s s' : StudySession), chunkSessionUpdate c s = some s' →
      s'.updatedAt = s.updatedAt) ∧
    (∀ (sid summary : String) (sessions : List StudySession) (i : Nat),
      ((setDocumentSummary sid summary sessions)[i]?).map (·.updatedAt) =
        (sessions[i]?).map (·.updatedAt)) := by
  refine ⟨?_, ?_, ?_, ?_, ?_⟩
  · intro sessions aid u now i s hi hid
    simp [updateActiveSession, List.getElem?_map, hi, hid]
  · intro ex sources now s hne
    match hm : s.messages.getLast? with
    | none =>
      exact absurd (List.getLast?_eq_none_iff.mp hm) hne
    | some last =>
      simp [reconcileSession, hm]
  · intro sid m tc sessions i
    simp only [appendUserMessage, List.getElem?_map]
    cases sessions[i]? with
    | none => rfl
    | some s =>
      by_cases h : s.id = sid <;> simp [h]
  · intro c s s' h
    match hm : s.messages.getLast? with
    | none => simp [chunkSessionUpdate, hm] at h
    | some last =>
      by_cases hr : last.role = Role.assistant
      · simp [chunkSessionUpdate, hm, hr] at h
        rw [← h]
      · simp [chunkSessionUpdate, hm, hr] at h
        rw [← h]
  · intro sid summary sessions i
    simp only [setDocumentSummary, List.getElem?_map]
    cases sessions[i]? with
    | none => rfl
    | some s =>
      by_cases h : s.id = sid <;> simp [h]

/-- Claim C8 as stated is false: appending a user message (here at time 100)
mutates the session, and the session's updatedAt stays at its old value 5. -/
theorem C8_counterexample :
    appendUserMessage "s1" { role := .user, content := "q", timestamp := 100 } "q"
        [sampleSession] =
      [{ sampleSession with
          messages := sampleSession.messages ++
            [{ role := .user, content := "q", timestamp := 100 }] }] ∧
    sampleSession.updatedAt = 5 ∧ (5 : Nat) ≠ 100 := by
  refine ⟨?_, rfl, by decide⟩
  rfl

/-- Closed instance of C8_updatedAt_stamping: a partial-field update through
updateActiveSession stamps updatedAt with the current time. -/
theorem C8_updatedAt_stamping_witness :
    ((updateActiveSession (some "s1") (.partialFields {}) 42 [sampleSession])[0]?).map
        (·.updatedAt) = some 42 :=
  C8_updatedAt_stamping.1 [sampleSession] "s1" (.partialFields {}) 42 0 sampleSession rfl rfl

/- ### Chunk-append safety (claim C9) -/

/-- Claim C9, corrected. The chunk-append update is a silent no-op when no
session has the target id, it succeeds whenever every session with the
target id still has a nonempty transcript, and a target session whose last
message is not an assistant message is left unchanged; but when the target
session's message list has become empty the update does not complete: it
reads the role of an undefined message and throws (modelled as none). -/
theorem C9_chunk_append :
    (∀ (sid c : String) (sessions : List StudySession),
      (∀ s ∈ sessions, s.id ≠ sid) → onChunkUpdate sid c sessions = some sessions) ∧
    (∀ (sid c : String) (sessions : List StudySession),
      (∀ s ∈ sessions, s.id = sid → s.messages ≠ []) →
      (onChunkUpdate sid c sessions).isSome = true) ∧
    (∀ (c : String) (s : StudySession) (last : Message),
      s.messages.getLast? = some last → last.role ≠ .assistant →
      chunkSessionUpdate c s = some s) ∧
    (∀ (c : String) (s : StudySession), s.messages = [] →
      chunkSessionUpdate c s = none) := by
  refine ⟨?_, ?_, ?_, ?_⟩
  · intro sid c sessions h
    induction sessions with
    | nil => rfl
    | cons s rest ih =>
      have hs : s.id ≠ sid := h s (List.mem_cons_self s rest)
      have hrest := ih fun t ht => h t (List.mem_cons_of_mem s ht)
      simp [onChunkUpdate, hs, hrest]
  · intro sid c sessions h
    induction sessions with
    | nil => rfl
    | cons s rest ih =>
      have hrest := ih fun t ht hid => h t (List.mem_cons_of_mem s ht) hid
      by_cases hs : s.id = sid
      · have hne : s.messages ≠ [] := h s (List.mem_cons_self s rest) hs
        match hm : s.messages.getLast? with
        | none => exact absurd (List.getLast?_eq_none_iff.mp hm) hne
        | some last =>
          by_cases hr : last.role = Role.assistant
          · simp only [onChunkUpdate, hs, if_pos, chunkSessionUpdate, hm, hr]
            obtain ⟨l, hl⟩ := Option.isSome_iff_exists.mp hrest
            simp [hl, hr]
          · simp only [onChunkUpdate, hs, if_pos, chunkSessionUpdate, hm, hr]
            obtain ⟨l, hl⟩ := Option.isSome_iff_exists.mp hrest
            simp [hl, hr]
      · simp only [onChunkUpdate, hs, if_neg]
        obtain ⟨l, hl⟩ := Option.isSome_iff_exists.mp hrest
        simp [hl, hs]
  · intro c s last hm hr
    simp [chunkSessionUpdate, hm, hr]
  · intro c s hempty
    simp [chunkSessionUpdate, hempty]

/-- Claim C9 as stated is false: a stream fragment landing on a session
whose transcript the user has emptied does not complete as a no-op; reading
the last message's role throws. -/
theorem C9_counterexample :
    onChunkUpdate "s2" "x" [noMessagesSession] = none := by
  rfl

/-- Closed instance of C9_chunk_append: a fragment whose target session id
no longer exists leaves the list unchanged. -/
theorem C9_chunk_append_witness :
    onChunkUpdate "gone" "x" [sampleSession] = some [sampleSession] :=
  C9_chunk_append.1 "gone" "x" [sampleSession]
    (by intro s hs; rcases List.mem_singleton.mp hs with rfl; simp [sampleSession])

/- ### Voice command dispatch (claim C10) -/

theorem searchKeywords_eq_find? (ci : Nat) (lower text : List Char) :
    ∀ kws : List String,
    searchKeywords ci lower text kws =
      ((kws.map (fun kw => (ci, kw))).find? (kwMatches lower)).map
        (fun q => (q.1, q.2, text.drop (q.2.data.length + 1))) := by
  intro kws
  induction kws with
  | nil => rfl
  | cons kw rest ih =>
    by_cases h : (kw.data ++ [' ']).isPrefixOf lower
    · simp [searchKeywords, h, List.find?_cons, kwMatches]
    · simp only [searchKeywords, h, if_neg, List.map_cons, List.find?_cons]
      have : kwMatches lower (ci, kw) = false := by
        simp [kwMatches, h]
      simp [this, ih]

theorem searchDynamic_eq_find? (lower text : List Char) :
    ∀ (dyn : List (List String)) (ci : Nat),
    searchDynamic ci lower text dyn =
      ((flatKeywordsFrom ci dyn).find? (kwMatches lower)).map
        (fun q => (q.1, q.2, text.drop (q.2.data.length + 1))) := by
  intro dyn
  induction dyn with
  | nil => intro ci; rfl
  | cons kws rest ih =>
    intro ci
    simp only [searchDynamic, flatKeywordsFrom, List.find?_append,
      searchKeywords_eq_find? ci lower text kws]
    cases hfind : (kws.map (fun kw => (ci, kw))).find? (kwMatches lower) with
    | some q => simp [hfind]
    | none => simp [hfind, ih]

/-- Claim C10, corrected. Dispatch first reads the lower-cased trimmed
phrase from the static table by JavaScript property lookup: an authored key
runs its action and stops listening, but the lookup also walks the
prototype chain, so a phrase naming an inherited Object.prototype method
(such as constructor) takes the static branch too, invoking the inherited
built-in and terminating the listening session, and the phrase naming the
non-callable inherited accessor __proto__ makes the branch throw a
TypeError (so listening is not stopped). Only when the lookup finds nothing
are the prefix-keyword rules tried in order, the first keyword-plus-space
prefixing the phrase winning and receiving the rest of the raw transcript
(the characters past the keyword-with-space length) as argument; a
transcript matching no rule, naming no inherited property and distinct from
the reserved phrases does nothing; and processing the phrase stop listening
or cancel always leaves the listening session terminated. -/
theorem C10_dispatch (staticKeys : List String) (dyn : List (List String))
    (text : String) (wasListening : Bool) :
    (String.mk (lowerTrim text) ∈ staticKeys →
      processTranscript staticKeys dyn text = .staticHit (String.mk (lowerTrim text))) ∧
    (String.mk (lowerTrim text) ∉ staticKeys →
      String.mk (lowerTrim text) ∈ objectPrototypeMethods →
      processTranscript staticKeys dyn text = .inheritedHit (String.mk (lowerTrim text)) ∧
      listeningAfter (processTranscript staticKeys dyn text) wasListening = false) ∧
    (String.mk (lowerTrim text) ∉ staticKeys →
      String.mk (lowerTrim text) = "__proto__" →
      processTranscript staticKeys dyn text = .crashed ∧
      listeningAfter (processTranscript staticKeys dyn text) wasListening = wasListening) ∧
    (String.mk (lowerTrim text) ∉ staticKeys →
      String.mk (lowerTrim text) ∉ objectPrototypeMethods →
      String.mk (lowerTrim text) ≠ "__proto__" →
      ∀ ci kw, (flatKeywords dyn).find? (kwMatches (lowerTrim text)) = some (ci, kw) →
      processTranscript staticKeys dyn text =
        .dynamicHit ci kw (String.mk (text.data.drop (kw.data.length + 1)))) ∧
    (String.mk (lowerTrim text) ∉ staticKeys →
      String.mk (lowerTrim text) ∉ objectPrototypeMethods →
      String.mk (lowerTrim text) ≠ "__proto__" →
      (flatKeywords dyn).find? (kwMatches (lowerTrim text)) = none →
      lowerTrim text ≠ "stop listening".data → lowerTrim text ≠ "cancel".data →
      processTranscript staticKeys dyn text = .noop ∧
      listeningAfter (processTranscript staticKeys dyn text) wasListening = wasListening) ∧
    ((lowerTrim text = "stop listening".data ∨ lowerTrim text = "cancel".data) →
      listeningAfter (processTranscript staticKeys dyn text) wasListening = false) := by
  refine ⟨?_, ?_, ?_, ?_, ?_, ?_⟩
  · intro hmem
    simp [processTranscript, staticLookup, hmem]
  · intro hmem hproto
    have hres : processTranscript staticKeys dyn text =
        .inheritedHit (String.mk (lowerTrim text)) := by
      simp [processTranscript, staticLookup, hmem, hproto]
    exact ⟨hres, by simp [hres, listeningAfter, stopsListening]⟩
  · intro hmem heq
    rw [heq] at hmem
    have hres : processTranscript staticKeys dyn text = .crashed := by
      simp [processTranscript, staticLookup, heq, hmem, objectPrototypeMethods]
    exact ⟨hres, by simp [hres, listeningAfter, stopsListening]⟩
  · intro hmem hnotm hnotp ci kw hfind
    simp only [processTranscript, staticLookup, if_neg hmem, if_neg hnotm, if_neg hnotp,
      searchDynamic_eq_find? (lowerTrim text) text.data dyn 0]
    have : flatKeywordsFrom 0 dyn = flatKeywords dyn := rfl
    rw [this, hfind]
    rfl
  · intro hmem hnotm hnotp hfind hstop hcancel
    have hres : processTranscript staticKeys dyn text = .noop := by
      simp only [processTranscript, staticLookup, if_neg hmem, if_neg hnotm, if_neg hnotp,
        searchDynamic_eq_find? (lowerTrim text) text.data dyn 0]
      have : flatKeywordsFrom 0 dyn = flatKeywords dyn := rfl
      rw [this, hfind]
      simp [hstop, hcancel]
    exact ⟨hres, by simp [hres, listeningAfter, stopsListening]⟩
  · intro hres
    by_cases hmem : String.mk (lowerTrim text) ∈ staticKeys
    · simp [processTranscript, staticLookup, hmem, listeningAfter, stopsListening]
    · have hnotm : String.mk (lowerTrim text) ∉ objectPrototypeMethods := by
        rcases hres with h | h <;> rw [h] <;> decide
      have hnotp : String.mk (lowerTrim text) ≠ "__proto__" := by
        rcases hres with h | h <;> rw [h] <;> decide
      simp only [processTranscript, staticLookup, if_neg hmem, if_neg hnotm, if_neg hnotp]
      cases hsearch : searchDynamic 0 (lowerTrim text) text.data dyn with
      | some r =>
        obtain ⟨ci, kw, arg⟩ := r
        simp [listeningAfter, stopsListening]
      | none =>
        rcases hres with h | h <;> simp [h, listeningAfter, stopsListening]

/-- Claim C10 as stated is false: against the app's own command tables, the
transcript constructor matches no authored rule and is not a reserved
phrase, yet the property lookup finds the inherited
Object.prototype.constructor, takes the static branch and terminates the
listening session; and the transcript __proto__ makes that branch throw
instead of doing nothing. -/
theorem C10_counterexample :
    processTranscript appVoiceCommandKeys appDynamicKeywords "constructor" =
      .inheritedHit "constructor" ∧
    listeningAfter
      (processTranscript appVoiceCommandKeys appDynamicKeywords "constructor") true =
      false ∧
    processTranscript appVoiceCommandKeys appDynamicKeywords "__proto__" = .crashed := by
  refine ⟨?_, ?_, ?_⟩ <;> rfl

/-- Closed instances of C10_dispatch: processing the reserved phrase cancel
terminates the listening session, and the phrase constructor fires the
inherited static branch. -/
theorem C10_dispatch_witness :
    listeningAfter (processTranscript ["new session"] [["ask"]] "cancel") true = false ∧
    processTranscript ["new session"] [["ask"]] "constructor" =
      .inheritedHit "constructor" :=
  ⟨(C10_dispatch ["new session"] [["ask"]] "cancel" true).2.2.2.2.2 (Or.inr rfl),
   ((C10_dispatch ["new session"] [["ask"]] "constructor" true).2.1
     (by decide) (by decide)).1⟩

/- ### Persistence round trip (claim C6) -/

theorem mapMOption_map_eq_some {α β : Type} (g : β → Option α) (f : α → β) :
    ∀ (l : List α), (∀ x ∈ l, g (f x) = some x) → mapMOption g (l.map f) = some l := by
  intro l
  induction l with
  | nil => intro _; rfl
  | cons x rest ih =>
    intro h
    have hx := h x (List.mem_cons_self x rest)
    have hrest := ih fun y hy => h y (List.mem_cons_of_mem x hy)
    simp [mapMOption, hx, hrest]

theorem decodeSource_encodeSource (s : Source) : decodeSource (encodeSource s) = some s := by
  obtain ⟨u, t, c⟩ := s
  cases c <;> simp [encodeSource, decodeSource, Json.getField, lookupLast, decodeStr]

theorem decodeNat_encodeNat (n : Nat) : decodeNat (some (.num (n : ℚ))) = some n := by
  simp [decodeNat, Rat.den_natCast, Rat.num_natCast]

theorem decodeMessage_encodeMessage (m : Message) :
    decodeMessage (encodeMessage m) = some m := by
  obtain ⟨r, c, img, srcs, t, uws⟩ := m
  have hsrcs : ∀ l : List Source, mapMOption decodeSource (l.map encodeSource) = some l :=
    fun l => mapMOption_map_eq_some decodeSource encodeSource l
      fun x _ => decodeSource_encodeSource x
  cases r <;> cases img <;> cases srcs <;> cases uws <;>
    simp [encodeMessage, encodeRole, decodeMessage, decodeRole, Json.getField,
      lookupLast, decodeStr, decodeNat_encodeNat, hsrcs]

theorem decodeSession_encodeSession (s : StudySession) :
    decodeSession (encodeSession s) = some s := by
  obtain ⟨i, t, ca, ua, ms, fc, fct, qi, qt, sl, slt, dc, ds⟩ := s
  have hmsgs : mapMOption decodeMessage (ms.map encodeMessage) = some ms :=
    mapMOption_map_eq_some decodeMessage encodeMessage ms
      fun x _ => decodeMessage_encodeMessage x
  simp [encodeSession, decodeSession, Json.getField, lookupLast, decodeStr,
    decodeNat_encodeNat, decodeJsonList, hmsgs]

/-- Claim C6. Saving a session list and loading it back yields a list
deep-equal to the original, field for field, for any number of sessions. -/
theorem C6_save_load_roundtrip (sessions : List StudySession) :
    loadSessions (saveSessions sessions) = sessions := by
  have henv : migrateData (.obj [("version", .num CURRENT_DATA_VERSION),
      ("sessions", .arr (sessions.map encodeSession))]) =
      .arr (sessions.map encodeSession) := by
    simp [migrateData, jsTruthy, hasField, Json.getField, lookupLast, CURRENT_DATA_VERSION]
  have hdec : mapMOption decodeSession (sessions.map encodeSession) = some sessions :=
    mapMOption_map_eq_some decodeSession encodeSession sessions
      fun x _ => decodeSession_encodeSession x
  simp [saveSessions, loadSessions, henv, hdec]

/- ### Response pipeline lemmas -/

theorem splitAtSub_self (l : List Char) : splitAtSub l l = some ([], []) := by
  cases l with
  | nil => rfl
  | cons c rest =>
    have h : (c :: rest).isPrefixOf (c :: rest) = true := by
      simp [List.isPrefixOf_iff_prefix]
    simp [splitAtSub, h, List.drop_length]

theorem string_append_data (x y : String) : x ++ y = String.mk (x.data ++ y.data) := rfl

theorem foldl_append_strings :
    ∀ (l : List String) (acc : String), l.foldl (· ++ ·) acc = acc ++ String.mk (flatText l) := by
  intro l
  induction l with
  | nil =>
    intro acc
    show acc = acc ++ String.mk (flatText [])
    rw [string_append_data]
    show acc = String.mk (acc.data ++ [])
    rw [List.append_nil]
  | cons c rest ih =>
    intro acc
    show rest.foldl (· ++ ·) (acc ++ c) = acc ++ String.mk (flatText (c :: rest))
    rw [ih (acc ++ c)]
    simp only [string_append_data]
    apply congrArg String.mk
    show (acc.data ++ c.data) ++ flatText rest = acc.data ++ flatText (c :: rest)
    rw [List.append_assoc]
    simp [flatText]

theorem join_eq_mk_flatText (chunks : List String) :
    String.join chunks = String.mk (flatText chunks) := by
  have h := foldl_append_strings chunks ""
  rw [string_append_data] at h
  simpa [String.join] using h

theorem reconcileSession_id (ex : Extracted) (sources : List Source) (now : Nat)
    (s : StudySession) : (reconcileSession ex sources now s).id = s.id := by
  cases hm : s.messages.getLast? <;> simp [reconcileSession, hm]

theorem find?_update_by_id (g : StudySession → StudySession)
    (hg : ∀ s, (g s).id = s.id) (sid : String) :
    ∀ l : List StudySession,
    (l.map fun s => if s.id = sid then g s else s).find? (fun t => decide (t.id = sid)) =
      (l.find? fun t => decide (t.id = sid)).map g := by
  intro l
  induction l with
  | nil => rfl
  | cons s rest ih =>
    by_cases h : s.id = sid
    · have h1 : decide ((g s).id = sid) = true := by simp [hg, h]
      have h2 : decide (s.id = sid) = true := by simp [h]
      simp only [List.map_cons, if_pos h, List.find?_cons, h1, h2]
      rfl
    · have h1 : decide (s.id = sid) = false := by simp [h]
      simp only [List.map_cons, if_neg h, List.find?_cons, h1]
      exact ih

theorem chunkSessionUpdate_withStreamMsg (c : String) (t0 : Nat) (acc : String)
    (s : StudySession) :
    chunkSessionUpdate c (withStreamMsg t0 acc s) =
      some (withStreamMsg t0 (acc ++ c) s) := by
  simp [chunkSessionUpdate, withStreamMsg, List.getLast?_concat, List.dropLast_concat]

theorem onChunkUpdate_map_shape (sid c : String)
    (u v : StudySession → StudySession) (hu : ∀ s, (u s).id = s.id)
    (huv : ∀ s, chunkSessionUpdate c (u s) = some (v s)) :
    ∀ base : List StudySession,
    onChunkUpdate sid c (base.map fun s => if s.id = sid then u s else s) =
      some (base.map fun s => if s.id = sid then v s else s) := by
  intro base
  induction base with
  | nil => rfl
  | cons s rest ih =>
    by_cases h : s.id = sid
    · have hid : (u s).id = sid := by rw [hu s, h]
      simp only [List.map_cons, if_pos h, onChunkUpdate, hid, if_pos, huv s, ih]
      rfl
    · simp only [List.map_cons, if_neg h, onChunkUpdate, h, ih]
      simp [h]

theorem runStream_shape (sid : String) (t0 : Nat) :
    ∀ (chunks : List String) (accL : List Char) (accS : String) (base : List StudySession),
    ∃ endS : String,
    runStream sid chunks accL
        (base.map fun s => if s.id = sid then withStreamMsg t0 accS s else s) =
      some (accL ++ flatText chunks,
        base.map fun s => if s.id = sid then withStreamMsg t0 endS s else s) := by
  intro chunks
  induction chunks with
  | nil =>
    intro accL accS base
    exact ⟨accS, by simp [runStream, flatText]⟩
  | cons c rest ih =>
    intro accL accS base
    by_cases hc : c = ""
    · obtain ⟨endS, hend⟩ := ih accL accS base
      refine ⟨endS, ?_⟩
      simp only [runStream, if_pos hc, hend]
      have : flatText (c :: rest) = flatText rest := by simp [flatText, hc]
      rw [this]
    · have honch := onChunkUpdate_map_shape sid c (withStreamMsg t0 accS)
        (withStreamMsg t0 (accS ++ c)) (fun s => rfl)
        (fun s => chunkSessionUpdate_withStreamMsg c t0 accS s) base
      obtain ⟨endS, hend⟩ := ih (accL ++ c.data) (accS ++ c) base
      refine ⟨endS, ?_⟩
      simp only [runStream, if_neg hc, honch, hend]
      have : accL ++ c.data ++ flatText rest = accL ++ flatText (c :: rest) := by
        simp [flatText, List.append_assoc]
      rw [this]

theorem appendPlaceholder_eq_map (sid : String) (t0 : Nat) (sessions : List StudySession) :
    appendPlaceholder sid t0 sessions =
      sessions.map fun s => if s.id = sid then withStreamMsg t0 "" s else s := rfl

theorem reconcile_map_shape (sid : String) (ex : Extracted) (sources : List Source)
    (now : Nat) (u : StudySession → StudySession) (hu : ∀ s, (u s).id = s.id)
    (base : List StudySession) :
    reconcile sid ex sources now (base.map fun s => if s.id = sid then u s else s) =
      base.map fun s => if s.id = sid then reconcileSession ex sources now (u s) else s := by
  rw [reconcile, List.map_map]
  apply List.map_congr_left
  intro s _
  by_cases h : s.id = sid
  · have hid : (u s).id = sid := by rw [hu s, h]
    simp [h, hid]
  · simp [h]

theorem processResponse_ok_shape (sid : String) (t0 : Nat) (chunks : List String)
    (sources : List Source) (now : Nat) (sessions : List StudySession) (mode : StudyMode) :
    ∃ endS : String,
    processResponse sid t0 (.ok (chunks, sources)) now sessions mode =
      some (sessions.map fun s => if s.id = sid then
          reconcileSession (extractAids (flatText chunks)) sources now
            (withStreamMsg t0 endS s)
        else s,
        (extractAids (flatText chunks)).modeSet.getD mode, []) := by
  obtain ⟨endS, hrun⟩ := runStream_shape sid t0 chunks [] "" sessions
  refine ⟨endS, ?_⟩
  simp only [processResponse, appendPlaceholder_eq_map, hrun, List.nil_append]
  rw [reconcile_map_shape sid _ sources now (withStreamMsg t0 endS) (fun s => rfl) sessions]

theorem reconcileSession_withStreamMsg (ex : Extracted) (sources : List Source)
    (now t0 : Nat) (acc : String) (s : StudySession) :
    reconcileSession ex sources now (withStreamMsg t0 acc s) =
      { s with
        messages := s.messages ++
          [{ role := .assistant, content := String.mk ex.finalText, image := none,
             sources := some sources, timestamp := t0, useWebSearch := none }],
        flashcards := if ex.newFlashcards.length > 0 then ex.newFlashcards else s.flashcards,
        flashcardsTitle :=
          if ex.newFlashcards.length > 0 then ex.studyAidTitle else s.flashcardsTitle,
        quizItems := if ex.newQuizItems.length > 0 then ex.newQuizItems else s.quizItems,
        quizTitle := if ex.newQuizItems.length > 0 then ex.studyAidTitle else s.quizTitle,
        slides := if ex.newSlides.length > 0 then ex.newSlides else s.slides,
        slidesTitle := if ex.newSlides.length > 0 then ex.studyAidTitle else s.slidesTitle,
        updatedAt := now } := by
  simp [reconcileSession, withStreamMsg, List.getLast?_concat, List.dropLast_concat]

theorem extractAids_no_fence (l : List Char) (h : jsonBlockMatch l = none) :
    extractAids l = noExtract l := by
  simp [extractAids, h]

theorem extractAids_parse_fail (l whole inner : List Char)
    (h : jsonBlockMatch l = some (whole, inner)) (hp : parseJsonL inner = none) :
    extractAids l = noExtract l := by
  by_cases hi : inner = []
  · simp [extractAids, h, hi]
  · simp [extractAids, h, hi, hp]

/- ### Streams without a fenced block (claim C2) -/

/-- Claim C2. When the concatenation of the stream fragments holds no fenced
json block, the reconciled assistant message's content is exactly that
concatenation, in arrival order, and the target session keeps all its aid
slots, titles and other fields (only the transcript and updatedAt change);
the display mode is untouched and nothing is notified. -/
theorem C2_plain_stream (sid : String) (t0 : Nat) (chunks : List String)
    (sources : List Source) (now : Nat) (sessions : List StudySession) (mode : StudyMode)
    (s : StudySession)
    (hfind : sessions.find? (fun t => decide (t.id = sid)) = some s)
    (hnf : jsonBlockMatch (flatText chunks) = none) :
    ∃ ss', processResponse sid t0 (.ok (chunks, sources)) now sessions mode =
        some (ss', mode, []) ∧
      ss'.find? (fun t => decide (t.id = sid)) = some
        { s with
          messages := s.messages ++
            [{ role := .assistant, content := String.join chunks, image := none,
               sources := some sources, timestamp := t0, useWebSearch := none }],
          updatedAt := now } := by
  obtain ⟨endS, hshape⟩ := processResponse_ok_shape sid t0 chunks sources now sessions mode
  rw [extractAids_no_fence _ hnf] at hshape
  refine ⟨sessions.map fun t => if t.id = sid then
      reconcileSession (noExtract (flatText chunks)) sources now (withStreamMsg t0 endS t)
    else t, ?_, ?_⟩
  · rw [hshape]
    rfl
  · rw [find?_update_by_id
      (fun t => reconcileSession (noExtract (flatText chunks)) sources now
        (withStreamMsg t0 endS t))
      (fun t => (reconcileSession_id _ _ _ _).trans rfl) sid sessions, hfind]
    simp only [Option.map_some']
    rw [reconcileSession_withStreamMsg]
    rw [join_eq_mk_flatText]
    simp [noExtract]

/- ### Malformed fenced JSON (claim C3) -/

/-- Claim C3. When the accumulated text holds a fenced json block whose
contents do not parse, the parse failure is swallowed: the final message
content is the full accumulated text unchanged, fence included; no aid slot
or title of the session changes; the display mode is untouched; and no
notification is surfaced. -/
theorem C3_malformed_json (sid : String) (t0 : Nat) (chunks : List String)
    (sources : List Source) (now : Nat) (sessions : List StudySession) (mode : StudyMode)
    (s : StudySession) (whole inner : List Char)
    (hfind : sessions.find? (fun t => decide (t.id = sid)) = some s)
    (hmatch : jsonBlockMatch (flatText chunks) = some (whole, inner))
    (hparse : parseJsonL inner = none) :
    ∃ ss', processResponse sid t0 (.ok (chunks, sources)) now sessions mode =
        some (ss', mode, []) ∧
      ss'.find? (fun t => decide (t.id = sid)) = some
        { s with
          messages := s.messages ++
            [{ role := .assistant, content := String.join chunks, image := none,
               sources := some sources, timestamp := t0, useWebSearch := none }],
          updatedAt := now } := by
  obtain ⟨endS, hshape⟩ := processResponse_ok_shape sid t0 chunks sources now sessions mode
  rw [extractAids_parse_fail _ whole inner hmatch hparse] at hshape
  refine ⟨sessions.map fun t => if t.id = sid then
      reconcileSession (noExtract (flatText chunks)) sources now (withStreamMsg t0 endS t)
    else t, ?_, ?_⟩
  · rw [hshape]
    rfl
  · rw [find?_update_by_id
      (fun t => reconcileSession (noExtract (flatText chunks)) sources now
        (withStreamMsg t0 endS t))
      (fun t => (reconcileSession_id _ _ _ _).trans rfl) sid sessions, hfind]
    simp only [Option.map_some']
    rw [reconcileSession_withStreamMsg]
    rw [join_eq_mk_flatText]
    simp [noExtract]

/- ### Successful extraction (claims C1 and C4) -/

theorem parseJsonL_nil : parseJsonL [] = none := rfl

theorem extractAids_parsed (l whole inner : List Char) (j : Json)
    (h : jsonBlockMatch l = some (whole, inner)) (hp : parseJsonL inner = some j) :
    extractAids l =
      ⟨(if (nonEmptyArrayField j "quiz").isSome
            || (nonEmptyArrayField j "flashcards").isSome
            || (nonEmptyArrayField j "slides").isSome then
          (if trimChars (replaceFirst l whole) = [] then fallbackSentence (titleString j)
           else trimChars (replaceFirst l whole))
        else l),
       (nonEmptyArrayField j "flashcards").getD [],
       (nonEmptyArrayField j "quiz").getD [],
       (nonEmptyArrayField j "slides").getD [],
       titleString j,
       (if (nonEmptyArrayField j "slides").isSome then some .slides
        else if (nonEmptyArrayField j "flashcards").isSome then some .flashcards
        else if (nonEmptyArrayField j "quiz").isSome then some .quiz
        else none)⟩ := by
  have hi : inner ≠ [] := by
    intro he
    rw [he, parseJsonL_nil] at hp
    exact Option.noConfusion hp
  simp [extractAids, h, hi, hp]

theorem nonEmptyArrayField_ne_nil (j : Json) (k : String) (l : List Json)
    (h : nonEmptyArrayField j k = some l) : l ≠ [] := by
  unfold nonEmptyArrayField at h
  cases hf : j.getField k with
  | none => rw [hf] at h; exact Option.noConfusion h
  | some v =>
    rw [hf] at h
    cases v with
    | arr a =>
      by_cases he : a.isEmpty
      · simp [he] at h
      · simp [he] at h
        subst h
        simpa [List.isEmpty_iff] using he
    | null => exact Option.noConfusion h
    | bool b => exact Option.noConfusion h
    | num q => exact Option.noConfusion h
    | str s => exact Option.noConfusion h
    | obj f => exact Option.noConfusion h

theorem replaceFirst_self (l : List Char) : replaceFirst l l = [] := by
  simp [replaceFirst, splitAtSub_self]

/-- Claim C1. When the accumulated stream text is exactly one fenced json
block (the regex match spans the whole text) whose contents parse to the
object with title T and the single flashcard Q/A/C, the session's
flashcardsTitle becomes T, its flashcards slot becomes the parsed one-card
array, the display mode switches to flashcards, and the visible message
content is the synthesized fallback sentence around T. -/
theorem C1_flashcards_extraction (sid : String) (t0 : Nat) (chunks : List String)
    (sources : List Source) (now : Nat) (sessions : List StudySession) (mode : StudyMode)
    (s : StudySession) (inner : List Char)
    (hfind : sessions.find? (fun t => decide (t.id = sid)) = some s)
    (hmatch : jsonBlockMatch (flatText chunks) = some (flatText chunks, inner))
    (hparse : parseJsonL inner = some c1Json) :
    ∃ ss',
      processResponse sid t0 (.ok (chunks, sources)) now sessions mode =
        some (ss', .flashcards, []) ∧
      ss'.find? (fun t => decide (t.id = sid)) = some
        { s with
          messages := s.messages ++
            [{ role := .assistant, content := "I've created the \"T\" for you.",
               image := none, sources := some sources, timestamp := t0,
               useWebSearch := none }],
          flashcards := [c1Card], flashcardsTitle := "T",
          updatedAt := now } := by
  obtain ⟨endS, hshape⟩ := processResponse_ok_shape sid t0 chunks sources now sessions mode
  have hex : extractAids (flatText chunks) =
      ⟨"I've created the \"T\" for you.".data, [c1Card], [], [], "T",
        some StudyMode.flashcards⟩ := by
    rw [extractAids_parsed _ _ _ _ hmatch hparse, replaceFirst_self]
    rfl
  rw [hex] at hshape
  refine ⟨sessions.map fun t => if t.id = sid then
      reconcileSession ⟨"I've created the \"T\" for you.".data, [c1Card], [], [], "T",
          some StudyMode.flashcards⟩ sources now (withStreamMsg t0 endS t)
    else t, ?_, ?_⟩
  · rw [hshape]
    rfl
  · rw [find?_update_by_id
      (fun t => reconcileSession ⟨"I've created the \"T\" for you.".data, [c1Card], [], [],
          "T", some StudyMode.flashcards⟩ sources now (withStreamMsg t0 endS t))
      (fun t => (reconcileSession_id _ _ _ _).trans rfl) sid sessions, hfind]
    simp only [Option.map_some']
    rw [reconcileSession_withStreamMsg]
    rfl

/-- Claim C4. On a successful parse of the fenced block, each of the quiz,
flashcards and slides fields present as a nonempty array replaces the
corresponding session slot together with its title, and the resulting
display mode is the one assigned last in the fixed order quiz, flashcards,
slides: slides when present, else flashcards, else quiz, else the mode is
unchanged. -/
theorem C4_multi_aid (sid : String) (t0 : Nat) (chunks : List String)
    (sources : List Source) (now : Nat) (sessions : List StudySession) (mode : StudyMode)
    (s : StudySession) (whole inner : List Char) (j : Json)
    (hfind : sessions.find? (fun t => decide (t.id = sid)) = some s)
    (hmatch : jsonBlockMatch (flatText chunks) = some (whole, inner))
    (hparse : parseJsonL inner = some j) :
    ∃ ss' s',
      processResponse sid t0 (.ok (chunks, sources)) now sessions mode =
        some (ss',
          (if (nonEmptyArrayField j "slides").isSome then .slides
           else if (nonEmptyArrayField j "flashcards").isSome then .flashcards
           else if (nonEmptyArrayField j "quiz").isSome then .quiz
           else mode), []) ∧
      ss'.find? (fun t => decide (t.id = sid)) = some s' ∧
      s'.quizItems = (nonEmptyArrayField j "quiz").getD s.quizItems ∧
      s'.quizTitle =
        (if (nonEmptyArrayField j "quiz").isSome then titleString j else s.quizTitle) ∧
      s'.flashcards = (nonEmptyArrayField j "flashcards").getD s.flashcards ∧
      s'.flashcardsTitle =
        (if (nonEmptyArrayField j "flashcards").isSome then titleString j
         else s.flashcardsTitle) ∧
      s'.slides = (nonEmptyArrayField j "slides").getD s.slides ∧
      s'.slidesTitle =
        (if (nonEmptyArrayField j "slides").isSome then titleString j
         else s.slidesTitle) := by
  obtain ⟨endS, hshape⟩ := processResponse_ok_shape sid t0 chunks sources now sessions mode
  have hexq : (extractAids (flatText chunks)).newQuizItems =
      (nonEmptyArrayField j "quiz").getD [] := by
    rw [extractAids_parsed _ _ _ _ hmatch hparse]
  have hexf : (extractAids (flatText chunks)).newFlashcards =
      (nonEmptyArrayField j "flashcards").getD [] := by
    rw [extractAids_parsed _ _ _ _ hmatch hparse]
  have hexs : (extractAids (flatText chunks)).newSlides =
      (nonEmptyArrayField j "slides").getD [] := by
    rw [extractAids_parsed _ _ _ _ hmatch hparse]
  have hext : (extractAids (flatText chunks)).studyAidTitle = titleString j := by
    rw [extractAids_parsed _ _ _ _ hmatch hparse]
  have hexm : (extractAids (flatText chunks)).modeSet =
      (if (nonEmptyArrayField j "slides").isSome then some StudyMode.slides
       else if (nonEmptyArrayField j "flashcards").isSome then some StudyMode.flashcards
       else if (nonEmptyArrayField j "quiz").isSome then some StudyMode.quiz
       else none) := by
    rw [extractAids_parsed _ _ _ _ hmatch hparse]
  refine ⟨sessions.map fun t => if t.id = sid then
      reconcileSession (extractAids (flatText chunks)) sources now (withStreamMsg t0 endS t)
    else t,
    reconcileSession (extractAids (flatText chunks)) sources now (withStreamMsg t0 endS s),
    ?_, ?_, ?_, ?_, ?_, ?_, ?_, ?_⟩
  · rw [hshape]
    have hmode : (extractAids (flatText chunks)).modeSet.getD mode =
        (if (nonEmptyArrayField j "slides").isSome then StudyMode.slides
         else if (nonEmptyArrayField j "flashcards").isSome then StudyMode.flashcards
         else if (nonEmptyArrayField j "quiz").isSome then StudyMode.quiz
         else mode) := by
      rw [hexm]
      cases (nonEmptyArrayField j "slides").isSome <;>
        cases (nonEmptyArrayField j "flashcards").isSome <;>
          cases (nonEmptyArrayField j "quiz").isSome <;> simp
    rw [hmode]
  · rw [find?_update_by_id
      (fun t => reconcileSession (extractAids (flatText chunks)) sources now
        (withStreamMsg t0 endS t))
      (fun t => (reconcileSession_id _ _ _ _).trans rfl) sid sessions, hfind]
    rfl
  · rw [reconcileSession_withStreamMsg]
    show (if (extractAids (flatText chunks)).newQuizItems.length > 0 then
        (extractAids (flatText chunks)).newQuizItems else s.quizItems) = _
    rw [hexq]
    cases hq : nonEmptyArrayField j "quiz" with
    | none => simp
    | some lq =>
      have := nonEmptyArrayField_ne_nil j "quiz" lq hq
      simp [List.length_pos, this]
  · rw [reconcileSession_withStreamMsg]
    show (if (extractAids (flatText chunks)).newQuizItems.length > 0 then
        (extractAids (flatText chunks)).studyAidTitle else s.quizTitle) = _
    rw [hexq, hext]
    cases hq : nonEmptyArrayField j "quiz" with
    | none => simp
    | some lq =>
      have := nonEmptyArrayField_ne_nil j "quiz" lq hq
      simp [List.length_pos, this]
  · rw [reconcileSession_withStreamMsg]
    show (if (extractAids (flatText chunks)).newFlashcards.length > 0 then
        (extractAids (flatText chunks)).newFlashcards else s.flashcards) = _
    rw [hexf]
    cases hfl : nonEmptyArrayField j "flashcards" with
    | none => simp
    | some lfl =>
      have := nonEmptyArrayField_ne_nil j "flashcards" lfl hfl
      simp [List.length_pos, this]
  · rw [reconcileSession_withStreamMsg]
    show (if (extractAids (flatText chunks)).newFlashcards.length > 0 then
        (extractAids (flatText chunks)).studyAidTitle else s.flashcardsTitle) = _
    rw [hexf, hext]
    cases hfl : nonEmptyArrayField j "flashcards" with
    | none => simp
    | some lfl =>
      have := nonEmptyArrayField_ne_nil j "flashcards" lfl hfl
      simp [List.length_pos, this]
  · rw [reconcileSession_withStreamMsg]
    show (if (extractAids (flatText chunks)).newSlides.length > 0 then
        (extractAids (flatText chunks)).newSlides else s.slides) = _
    rw [hexs]
    cases hsl : nonEmptyArrayField j "slides" with
    | none => simp
    | some lsl =>
      have := nonEmptyArrayField_ne_nil j "slides" lsl hsl
      simp [List.length_pos, this]
  · rw [reconcileSession_withStreamMsg]
    show (if (extractAids (flatText chunks)).newSlides.length > 0 then
        (extractAids (flatText chunks)).studyAidTitle else s.slidesTitle) = _
    rw [hexs, hext]
    cases hsl : nonEmptyArrayField j "slides" with
    | none => simp
    | some lsl =>
      have := nonEmptyArrayField_ne_nil j "slides" lsl hsl
      simp [List.length_pos, this]

/-- Closed instance of C1_flashcards_extraction: one fenced flashcards block
as the entire stream produces the one-card slot, the title T, flashcards
mode and the fallback sentence. -/
theorem C1_flashcards_extraction_witness :
    ∃ ss',
      processResponse "s1" 10 (.ok ([c1StreamChunk], [])) 99 [sampleSession] .chat =
        some (ss', .flashcards, []) ∧
      ss'.find? (fun t => decide (t.id = "s1")) = some
        { sampleSession with
          messages := sampleSession.messages ++
            [{ role := .assistant, content := "I've created the \"T\" for you.",
               image := none, sources := some [], timestamp := 10,
               useWebSearch := none }],
          flashcards := [c1Card], flashcardsTitle := "T",
          updatedAt := 99 } :=
  C1_flashcards_extraction "s1" 10 [c1StreamChunk] [] 99 [sampleSession] .chat
    sampleSession c1Inner rfl rfl rfl

/-- Closed instance of C2_plain_stream: two plain fragments reconcile to
their concatenation with nothing else changed. -/
theorem C2_plain_stream_witness :
    ∃ ss',
      processResponse "s1" 10 (.ok (["Hello ", "world"], [])) 99 [sampleSession] .chat =
        some (ss', .chat, []) ∧
      ss'.find? (fun t => decide (t.id = "s1")) = some
        { sampleSession with
          messages := sampleSession.messages ++
            [{ role := .assistant, content := String.join ["Hello ", "world"],
               image := none, sources := some [], timestamp := 10,
               useWebSearch := none }],
          updatedAt := 99 } :=
  C2_plain_stream "s1" 10 ["Hello ", "world"] [] 99 [sampleSession] .chat sampleSession
    rfl rfl

/-- Closed instance of C3_malformed_json: a fenced block with a trailing
comma is kept verbatim and no slot or mode changes. -/
theorem C3_malformed_json_witness :
    ∃ ss',
      processResponse "s1" 10 (.ok ([c3StreamChunk], [])) 99 [sampleSession] .chat =
        some (ss', .chat, []) ∧
      ss'.find? (fun t => decide (t.id = "s1")) = some
        { sampleSession with
          messages := sampleSession.messages ++
            [{ role := .assistant, content := String.join [c3StreamChunk],
               image := none, sources := some [], timestamp := 10,
               useWebSearch := none }],
          updatedAt := 99 } :=
  C3_malformed_json "s1" 10 [c3StreamChunk] [] 99 [sampleSession] .chat sampleSession
    c3StreamChunk.data c3Inner rfl rfl rfl

/-- Closed instance of C4_multi_aid: a block with quiz, flashcards and
slides at once replaces all three slots and their titles, and slides (the
last-checked aid) wins the display mode. -/
theorem C4_multi_aid_witness :
    ∃ ss' s',
      processResponse "s1" 10 (.ok ([c4StreamChunk], [])) 99 [sampleSession] .chat =
        some (ss', .slides, []) ∧
      ss'.find? (fun t => decide (t.id = "s1")) = some s' ∧
      s'.quizItems = [c4QuizItem] ∧ s'.quizTitle = "X" ∧
      s'.flashcards = [c1Card] ∧ s'.flashcardsTitle = "X" ∧
      s'.slides = [c4Slide] ∧ s'.slidesTitle = "X" :=
  C4_multi_aid "s1" 10 [c4StreamChunk] [] 99 [sampleSession] .chat sampleSession
    c4StreamChunk.data c4Inner c4Json rfl rfl rfl

end StudyGPT
